import Mathlib

/-!
Verification of the futex-based synchronization subsystem in
`dlls/ntdll/unix/fsync.c` (the feature gate `do_fsync`/`fsync_init`, the
shared page pool `get_shm`, the handle cache `handle_to_index` /
`add_to_list` / `get_cached_object`, and the object creation protocol
`create_fsync`).

The C code is shallowly embedded: machine integers are `Nat` with explicit
reduction modulo `2 ^ 64` where unsigned wraparound matters (`UINT_PTR` and
`unsigned long` on an LP64 platform), the file-scope mutable variables
become explicit state records threaded through the functions, and external
effects (the wineserver reply, `realloc`, `mmap`, `anon_mmap_alloc`, the
futex probe, `getenv`) become oracle parameters.  Undefined behaviour that
necessarily terminates the process (a write through a null pointer, an
integer division by zero) is modelled by returning `none`.
-/

namespace FsyncSpec

/-- Width of `UINT_PTR` and `unsigned long` on the modelled LP64 platform:
all pointer-sized arithmetic in the source is reduced modulo this. -/
def PTR_MOD : Nat := 2 ^ 64

/-- Width of C `unsigned int`: the slot index parameter of `get_shm` has
this type, so the byte position `idx * 8` is computed modulo this. -/
def UINT_MOD : Nat := 2 ^ 32

/-- Size in bytes of `struct fsync` on LP64: a 4-byte `enum fsync_type`,
4 bytes of padding, and an 8-byte pointer. -/
def sizeof_fsync : Nat := 16

/-- Entries per handle-cache block: `65536 / sizeof(struct fsync)` (fsync.c
line 153). -/
def FSYNC_LIST_BLOCK_SIZE : Nat := 65536 / sizeof_fsync

/-- Number of outer handle-cache slots (fsync.c line 154). -/
def FSYNC_LIST_ENTRIES : Nat := 256

/-- Size in bytes of `struct semaphore`: `int count; int max;`.  The source
asserts `C_ASSERT(sizeof(struct semaphore) == 8)` (fsync.c line 111). -/
def sizeof_semaphore : Nat := 4 + 4

/-- NTSTATUS success code. -/
def STATUS_SUCCESS : Nat := 0

/-- NTSTATUS code 0x40000000: a named object already existed. -/
def STATUS_OBJECT_NAME_EXISTS : Nat := 0x40000000

/-- NTSTATUS code 0xC0000002: the request is not implemented. -/
def STATUS_NOT_IMPLEMENTED : Nat := 0xC0000002

/-- NTSTATUS code 0xC0000022: access denied (used as a sample failure). -/
def STATUS_ACCESS_DENIED : Nat := 0xC0000022

/-- Pointwise update of a `Nat`-indexed function, mirroring an array store. -/
def fupd {α : Type} (f : Nat → α) (k : Nat) (v : α) : Nat → α :=
  fun j => if j = k then v else f j

/-- Case analysis on an optional value, used to embed the C null tests:
the second argument is the NULL branch, the third the non-null branch. -/
def optElim {α β : Type} (o : Option α) (n : β) (s : α → β) : β :=
  match o with
  | none => n
  | some a => s a

/-- One `struct fsync` record (fsync.c lines 100-104): a type tag (0 means
not yet published) and the `shm` pointer value (0 means not yet set; freshly
allocated blocks are zeroed). -/
structure Fsync where
  type : Nat
  shm : Nat
  deriving DecidableEq

/-- One handle-cache block: `FSYNC_LIST_BLOCK_SIZE` contiguous records,
modelled as a total function from the in-block index. -/
def Block := Nat → Fsync

/-- The file-scope handle cache `fsync_list` (fsync.c line 156): outer array
slot `entry` is `none` while `fsync_list[entry]` is still NULL. -/
structure CacheState where
  list : Nat → Option Block

/-- A zeroed block: both the static `fsync_list_initial_block` and the pages
returned by `anon_mmap_alloc` start out all-zero. -/
def zeroBlock : Block := fun _ => ⟨0, 0⟩

/-- The initial cache: every outer slot is NULL. -/
def emptyCache : CacheState := ⟨fun _ => none⟩

/-- Embedding of `handle_to_index` (fsync.c lines 159-164): the handle is
shifted right by two and decremented in wrapping `UINT_PTR` arithmetic;
the result is split into the in-block index (first component, the C return
value) and the block number (second component, the out-parameter `*entry`). -/
def handle_to_index (handle : Nat) : Nat × Nat :=
  let idx := (handle / 4 + (PTR_MOD - 1)) % PTR_MOD
  (idx % FSYNC_LIST_BLOCK_SIZE, idx / FSYNC_LIST_BLOCK_SIZE)

/-- The entry-range check and lazy block allocation of `add_to_list`
(fsync.c lines 168-186).  `allocOk` is the oracle for `anon_mmap_alloc`.
Returns `none` when the C function returns FALSE (entry out of range, or
block allocation failed), otherwise the updated cache together with
`(entry, idx)`. -/
def add_to_list_locate (s : CacheState) (handle : Nat) (allocOk : Bool) :
    Option (CacheState × Nat × Nat) :=
  let p := handle_to_index handle
  let idx := p.1
  let entry := p.2
  if FSYNC_LIST_ENTRIES ≤ entry then none
  else
    optElim (s.list entry)
      (if entry = 0 then some (⟨fupd s.list 0 (some zeroBlock)⟩, entry, idx)
       else if allocOk then some (⟨fupd s.list entry (some zeroBlock)⟩, entry, idx)
       else none)
      (fun _ => some (s, entry, idx))

/-- The atomic compare-and-swap
`__sync_val_compare_and_swap((int *)&fsync_list[entry][idx].type, 0, type)`
(fsync.c line 188): writes `ty` if the stored type was 0 and returns the old
value.  The block is always allocated when `add_to_list` reaches this point;
an unallocated block is left untouched. -/
def cas_type (s : CacheState) (entry idx ty : Nat) : CacheState × Nat :=
  optElim (s.list entry) (s, 0) (fun b =>
    if (b idx).type = 0 then
      (⟨fupd s.list entry (some (fupd b idx ⟨ty, (b idx).shm⟩))⟩, 0)
    else (s, (b idx).type))

/-- The plain store `fsync_list[entry][idx].shm = shm` (fsync.c line 189),
executed only by the CAS winner. -/
def store_shm (s : CacheState) (entry idx p : Nat) : CacheState :=
  optElim (s.list entry) s (fun b =>
    ⟨fupd s.list entry (some (fupd b idx ⟨(b idx).type, p⟩))⟩)

/-- Embedding of `add_to_list` (fsync.c lines 166-192): locate and lazily
allocate the block, CAS-publish the type, and only on a won CAS store the
`shm` pointer afterwards.  The boolean is `true` when the C function returns
the record's address and `false` when it returns FALSE. -/
def add_to_list (s : CacheState) (handle ty shm : Nat) (allocOk : Bool) :
    CacheState × Bool :=
  optElim (add_to_list_locate s handle allocOk) (s, false) (fun t =>
    let c := cas_type t.1 t.2.1 t.2.2 ty
    (if c.2 = 0 then store_shm c.1 t.2.1 t.2.2 shm else c.1, true))

/-- The cache state visible between the two atomic actions of `add_to_list`:
after the CAS of line 188 has executed but before the store of line 189.
`none` when `add_to_list` bailed out before the CAS. -/
def add_to_list_after_cas (s : CacheState) (handle ty : Nat) (allocOk : Bool) :
    Option CacheState :=
  optElim (add_to_list_locate s handle allocOk) none (fun t =>
    some (cas_type t.1 t.2.1 t.2.2 ty).1)

/-- Embedding of `get_cached_object` (fsync.c lines 194-202): NULL when the
entry is out of range, the block unallocated, or the record's type still 0;
otherwise the record. -/
def get_cached_object (s : CacheState) (handle : Nat) : Option Fsync :=
  let p := handle_to_index handle
  let idx := p.1
  let entry := p.2
  if FSYNC_LIST_ENTRIES ≤ entry then none
  else
    optElim (s.list entry) none
      (fun b => if (b idx).type = 0 then none else some (b idx))

/-- The `mmap` failure sentinel `(void *)-1` reinterpreted as an unsigned
pointer value: when the mapping fails the C code logs an error but keeps the
sentinel as `addr` and publishes it. -/
def MAP_FAILED_ADDR : Nat := PTR_MOD - 1

/-- The file-scope shared page pool state (fsync.c lines 114-118): the
growable `shm_addrs` array (a slot is `none` while still NULL), its
allocated length `shm_addrs_size`, and `pagesize`. -/
structure ShmState where
  shm_addrs : Nat → Option Nat
  shm_addrs_size : Nat
  pagesize : Nat

/-- The growth step of `get_shm` (fsync.c lines 125-133): when `entry` is
outside the allocated array, double it (to at least `entry + 1`) and zero
the fresh region.  `reallocOk` is the oracle for `realloc`; on a failed
`realloc` the C code overwrites `shm_addrs` with NULL, logs, and then
`memset(shm_addrs + shm_addrs_size, ...)` writes through the null pointer —
the process dies, modelled as `none`. -/
def shm_grow (s : ShmState) (entry : Nat) (reallocOk : Bool) : Option ShmState :=
  if s.shm_addrs_size ≤ entry then
    if reallocOk then
      let new_size := max (s.shm_addrs_size * 2) (entry + 1)
      some { s with
             shm_addrs := fun e =>
               if s.shm_addrs_size ≤ e ∧ e < new_size then none
               else s.shm_addrs e,
             shm_addrs_size := new_size }
    else none
  else some s

/-- The first-mapping step of `get_shm` (fsync.c lines 135-145): when slot
`entry` is still NULL, `mmap` the page and publish the result — including
the MAP_FAILED sentinel, which the C code only logs before publishing.
`mmapRes` is the oracle for `mmap` (`none` meaning MAP_FAILED).  In this
sequential embedding nothing can intervene between the NULL test of line
135 and the CAS of line 143, so the CAS always succeeds and the `munmap`
loser branch is unreachable; the interleaved first-mapping race is modelled
separately by `RaceState` below. -/
def shm_map_entry (s1 : ShmState) (entry : Nat) (mmapRes : Option Nat) : ShmState :=
  match s1.shm_addrs entry with
  | some _ => s1
  | none =>
    let addr := match mmapRes with
      | some a => a
      | none => MAP_FAILED_ADDR
    { s1 with shm_addrs := fupd s1.shm_addrs entry (some addr) }

/-- Embedding of `get_shm` (fsync.c lines 120-148).  The parameter `idx`
is C `unsigned int`, so the byte position `idx * 8` is 32-bit unsigned
arithmetic and wraps modulo 2^32 before the page division; the quotient
and remainder are then stored in `int entry` and `int offset`, which
cannot truncate for any real POSIX page size (`entry ≤ 2^32 / pagesize`
and `offset < pagesize` both fit in `int` once `pagesize ≥ 2`).  Returns
`none` exactly when the C code hits undefined behaviour that kills the
process: the divisions with `pagesize` still 0, or the `shm_grow` crash
after a failed `realloc`.  Otherwise returns the pointer value
`shm_addrs[entry] + offset` (in wrapping unsigned arithmetic) together
with the updated pool. -/
def get_shm (s : ShmState) (idx : Nat) (reallocOk : Bool) (mmapRes : Option Nat) :
    Option (Nat × ShmState) :=
  if s.pagesize = 0 then none
  else
    let entry := idx * 8 % UINT_MOD / s.pagesize
    let offset := idx * 8 % UINT_MOD % s.pagesize
    match shm_grow s entry reallocOk with
    | none => none
    | some s1 =>
      let s2 := shm_map_entry s1 entry mmapRes
      some (((s2.shm_addrs entry).getD 0 + offset) % PTR_MOD, s2)

/-- The page pool as `fsync_init` leaves it on the enabled path (fsync.c
lines 277-280): 128 NULL slots and the system page size. -/
def initShm (pagesizeVal : Nat) : ShmState :=
  ⟨fun _ => none, 128, pagesizeVal⟩

/-- The page pool before `fsync_init` has run: all file-scope variables are
zero-initialized, in particular `pagesize` is still 0. -/
def uninitShm : ShmState := ⟨fun _ => none, 0, 0⟩

/-- The cached feature-gate decision `do_fsync_cached` (fsync.c line 77):
`none` models the -1 sentinel, `some v` a computed decision. -/
structure FsyncGate where
  do_fsync_cached : Option Bool
  deriving DecidableEq

/-- Embedding of `do_fsync` (fsync.c lines 74-93) on Linux.  `envEnabled`
is the oracle for `getenv("WINEFSYNC") && atoi(getenv("WINEFSYNC"))`,
`probeENOSYS` for whether the `futex_wait_multiple(NULL, 0, &zero)` probe
left `errno == ENOSYS`.  Returns the decision, the new gate state, and
whether the probe and environment check actually ran on this call. -/
def do_fsync (g : FsyncGate) (envEnabled probeENOSYS : Bool) :
    Bool × FsyncGate × Bool :=
  match g.do_fsync_cached with
  | some v => (v, g, false)
  | none =>
    let v := envEnabled && !probeENOSYS
    (v, ⟨some v⟩, true)

/-- The whole process-local state the creation protocol touches: the handle
cache and the shared page pool. -/
structure ProcState where
  cache : CacheState
  shm : ShmState

/-- The wineserver's reply to a `create_fsync` request: an NTSTATUS plus,
meaningful only on success or name collision, the handle and the shared
memory slot index. -/
structure ServerReply where
  status : Nat
  handle : Nat
  shm_idx : Nat
  deriving DecidableEq

/-- Embedding of `create_fsync` (fsync.c lines 204-237).  `allocAttrStatus`
is the result of `alloc_object_attributes` (0 on success), `reply` the
wineserver's answer, and `reallocOk`, `mmapRes`, `blockAllocOk` the oracles
forwarded to `get_shm` and `add_to_list`.  Returns `none` when `get_shm`
crashed, otherwise the returned NTSTATUS, the value stored through the
`handle` out-parameter (`none` when it was not written), and the state.
The cache and the pool are touched only when the reply status is success
or STATUS_OBJECT_NAME_EXISTS, in which case `add_to_list(*handle, type,
get_shm(shm_idx))` runs with the reply's handle and slot index. -/
def create_fsync (s : ProcState) (ty allocAttrStatus : Nat) (reply : ServerReply)
    (reallocOk : Bool) (mmapRes : Option Nat) (blockAllocOk : Bool) :
    Option (Nat × Option Nat × ProcState) :=
  if allocAttrStatus ≠ 0 then some (allocAttrStatus, none, s)
  else
    let ret := reply.status
    if ret = STATUS_SUCCESS ∨ ret = STATUS_OBJECT_NAME_EXISTS then
      optElim (get_shm s.shm reply.shm_idx reallocOk mmapRes) none (fun pr =>
        some (ret, some reply.handle,
              ⟨(add_to_list s.cache reply.handle ty pr.1 blockAllocOk).1, pr.2⟩))
    else some (ret, none, s)

/-- How a run of `fsync_init` ends: a normal return, `exit(1)` after a
configuration-mismatch or shared-memory diagnostic, or a crash from
undefined behaviour. -/
inductive InitOutcome where
  | normal : InitOutcome
  | aborted : InitOutcome
  | crashed : InitOutcome
  deriving DecidableEq

/-- Embedding of `fsync_init` (fsync.c lines 239-281).  `enabled` is the
value of `do_fsync()`, `probeReply` the wineserver's answer to the probe
`create_fsync(0, &handle, 0, NULL, 0, 0)` issued on the disabled path, and
`shmOpenOk` the oracle for `shm_open` on the enabled path.  Returns the
outcome together with a flag telling whether the probe creation request was
sent.  On the disabled path the probe runs against the still uninitialized
page pool, so a success-like reply reaches `get_shm` with `pagesize == 0`
and crashes; any other reply comes back verbatim and the process aborts
unless the reply is STATUS_NOT_IMPLEMENTED. -/
def fsync_init (enabled : Bool) (probeReply : ServerReply) (shmOpenOk : Bool) :
    InitOutcome × Bool :=
  if !enabled then
    optElim (create_fsync ⟨emptyCache, uninitShm⟩ 0 0 probeReply true none true)
      (InitOutcome.crashed, true)
      (fun r =>
        if r.1 ≠ STATUS_NOT_IMPLEMENTED then (InitOutcome.aborted, true)
        else (InitOutcome.normal, true))
  else
    if shmOpenOk then (InitOutcome.normal, false)
    else (InitOutcome.aborted, false)

/-- Program counter of one thread running the first-mapping section of
`get_shm` (fsync.c lines 135-147) for a fixed unmapped page: it reads the
slot (line 135), maps the page (line 137), CAS-publishes and unmaps when
beaten (lines 143-144), and finally returns the published slot value. -/
inductive TPC where
  | start : TPC
  | checked : TPC
  | haveAddr : Nat → TPC
  | finished : Nat → TPC
  deriving DecidableEq

/-- Shared state of the two-thread first-mapping race on one page:
the `shm_addrs` slot for the page, the multiset of currently live `mmap`
mappings, and the two program counters. -/
structure RaceState where
  slot : Option Nat
  mapped : Multiset Nat
  pcA : TPC
  pcB : TPC
  deriving DecidableEq

/-- One atomic action of a thread whose `mmap` returns `myAddr`:
at `start` it loads the slot, skipping the mapping section when the slot is
already published; at `checked` it performs the `mmap`; at `haveAddr` it
performs the CAS, the loser unmapping its redundant mapping, and both
winner and loser then return the published slot value. -/
def tstep (myAddr : Nat) (slot : Option Nat) (mapped : Multiset Nat) (pc : TPC) :
    Option Nat × Multiset Nat × TPC :=
  match pc, slot with
  | TPC.start, some w => (slot, mapped, TPC.finished w)
  | TPC.start, none => (slot, mapped, TPC.checked)
  | TPC.checked, _ => (slot, myAddr ::ₘ mapped, TPC.haveAddr myAddr)
  | TPC.haveAddr a, none => (some a, mapped, TPC.finished a)
  | TPC.haveAddr a, some w => (slot, mapped.erase a, TPC.finished w)
  | TPC.finished r, _ => (slot, mapped, TPC.finished r)

/-- Step thread A, whose `mmap` returns `aA`. -/
def stepA (aA : Nat) (s : RaceState) : RaceState :=
  let r := tstep aA s.slot s.mapped s.pcA
  ⟨r.1, r.2.1, r.2.2, s.pcB⟩

/-- Step thread B, whose `mmap` returns `aB`. -/
def stepB (aB : Nat) (s : RaceState) : RaceState :=
  let r := tstep aB s.slot s.mapped s.pcB
  ⟨r.1, r.2.1, s.pcA, r.2.2⟩

/-- Run the race under a schedule: `true` steps thread A, `false` thread B. -/
def raceRun (aA aB : Nat) (s : RaceState) : List Bool → RaceState
  | [] => s
  | c :: rest => raceRun aA aB (if c then stepA aA s else stepB aB s) rest

/-- The race's initial state: the page is unmapped, no live mappings,
both threads about to execute the NULL test of line 135. -/
def raceInit : RaceState := ⟨none, 0, TPC.start, TPC.start⟩

/-- The live mapping a thread is responsible for at a given program point:
exactly its own fresh `mmap` while it is between the `mmap` and the CAS. -/
def contrib : TPC → Multiset Nat
  | TPC.haveAddr a => {a}
  | _ => 0

/-- The live mapping retained by the published slot, if any. -/
def slotM : Option Nat → Multiset Nat
  | none => 0
  | some w => {w}

/-- Inductive invariant of the two-thread first-mapping race (thread A's
`mmap` returns `aA`, thread B's returns `aB`): the live mappings are
exactly the published one plus the in-flight ones, an in-flight address is
the owning thread's own, a finished thread returned the published value,
and the slot was published by the thread whose address it carries. -/
structure RaceInv (aA aB : Nat) (s : RaceState) : Prop where
  mapped_eq : s.mapped = slotM s.slot + contrib s.pcA + contrib s.pcB
  haveA : ∀ a, s.pcA = TPC.haveAddr a → a = aA
  haveB : ∀ a, s.pcB = TPC.haveAddr a → a = aB
  finA : ∀ r, s.pcA = TPC.finished r → s.slot = some r
  finB : ∀ r, s.pcB = TPC.finished r → s.slot = some r
  pub : ∀ w, s.slot = some w →
    (w = aA ∧ s.pcA = TPC.finished aA) ∨ (w = aB ∧ s.pcB = TPC.finished aB)

/-! ## Helper lemmas -/

theorem fupd_self {α : Type} (f : Nat → α) (k : Nat) (v : α) : fupd f k v k = v := by
  simp [fupd]

theorem fupd_fupd {α : Type} (f : Nat → α) (k : Nat) (v w : α) :
    fupd (fupd f k v) k w = fupd f k w := by
  funext j
  by_cases hj : j = k <;> simp [fupd, hj]

theorem optElim_none {α β : Type} (n : β) (s : α → β) : optElim none n s = n := rfl

theorem optElim_some {α β : Type} (a : α) (n : β) (s : α → β) :
    optElim (some a) n s = s a := rfl

theorem shm_grow_some_inv {s : ShmState} {entry : Nat} {ro : Bool} {s1 : ShmState}
    (h : shm_grow s entry ro = some s1) :
    s1.pagesize = s.pagesize ∧
    s1.shm_addrs_size =
      (if s.shm_addrs_size ≤ entry then max (s.shm_addrs_size * 2) (entry + 1)
       else s.shm_addrs_size) ∧
    entry < s1.shm_addrs_size ∧
    s1.shm_addrs entry = (if s.shm_addrs_size ≤ entry then none else s.shm_addrs entry) := by
  by_cases hg : s.shm_addrs_size ≤ entry
  · cases ro with
    | false => simp [shm_grow, hg] at h
    | true =>
      simp only [shm_grow, if_pos hg, if_true, Option.some.injEq] at h
      subst h
      refine ⟨rfl, by simp [hg], ?_, ?_⟩
      · exact Nat.lt_of_lt_of_le (Nat.lt_succ_self entry) (le_max_right _ _)
      · simp only [if_pos hg]
        exact if_pos ⟨hg, Nat.lt_of_lt_of_le (Nat.lt_succ_self entry) (le_max_right _ _)⟩
  · simp only [shm_grow, if_neg hg, Option.some.injEq] at h
    subst h
    exact ⟨rfl, by simp [hg], Nat.lt_of_not_le hg, by simp [hg]⟩

theorem shm_map_entry_spec (s1 : ShmState) (entry : Nat) (mm : Option Nat) :
    (shm_map_entry s1 entry mm).pagesize = s1.pagesize ∧
    (shm_map_entry s1 entry mm).shm_addrs_size = s1.shm_addrs_size ∧
    ∃ a, (shm_map_entry s1 entry mm).shm_addrs entry = some a := by
  cases h : s1.shm_addrs entry with
  | some a => simp [shm_map_entry, h]
  | none => simp [shm_map_entry, h, fupd]

theorem shm_map_entry_already {s1 : ShmState} {entry : Nat} {mm : Option Nat} {a : Nat}
    (h : s1.shm_addrs entry = some a) : shm_map_entry s1 entry mm = s1 := by
  simp [shm_map_entry, h]

theorem get_shm_some_inv {s : ShmState} {idx : Nat} {ro : Bool} {mm : Option Nat}
    {r : Nat} {s2 : ShmState} (h : get_shm s idx ro mm = some (r, s2)) :
    0 < s.pagesize ∧ s2.pagesize = s.pagesize ∧
    s2.shm_addrs_size =
      (if s.shm_addrs_size ≤ idx * 8 % UINT_MOD / s.pagesize
       then max (s.shm_addrs_size * 2) (idx * 8 % UINT_MOD / s.pagesize + 1)
       else s.shm_addrs_size) ∧
    idx * 8 % UINT_MOD / s.pagesize < s2.shm_addrs_size ∧
    ∃ a, s2.shm_addrs (idx * 8 % UINT_MOD / s.pagesize) = some a ∧
         r = (a + idx * 8 % UINT_MOD % s.pagesize) % PTR_MOD := by
  by_cases hp : s.pagesize = 0
  · simp [get_shm, hp] at h
  · simp only [get_shm, if_neg hp] at h
    cases hgrow : shm_grow s (idx * 8 % UINT_MOD / s.pagesize) ro with
    | none => rw [hgrow] at h; exact absurd h (by simp)
    | some s1 =>
      rw [hgrow] at h
      simp only [Option.some.injEq, Prod.mk.injEq] at h
      obtain ⟨hr, hs2⟩ := h
      obtain ⟨hgp, hgsz, hglt, _⟩ := shm_grow_some_inv hgrow
      obtain ⟨hmp, hmsz, a, ha⟩ := shm_map_entry_spec s1 (idx * 8 % UINT_MOD / s.pagesize) mm
      subst hs2
      refine ⟨Nat.pos_of_ne_zero hp, by rw [hmp, hgp], by rw [hmsz, hgsz],
              by rw [hmsz]; exact hglt, a, ha, ?_⟩
      rw [← hr, ha]
      rfl

theorem get_shm_stable {s : ShmState} {idx : Nat} {ro : Bool} {mm : Option Nat}
    {r : Nat} {s2 : ShmState} (h : get_shm s idx ro mm = some (r, s2))
    (ro2 : Bool) (mm2 : Option Nat) : get_shm s2 idx ro2 mm2 = some (r, s2) := by
  obtain ⟨hp, hps, _, hlt, a, ha, hr⟩ := get_shm_some_inv h
  have hp2 : ¬s2.pagesize = 0 := by
    rw [hps]; exact Nat.pos_iff_ne_zero.mp hp
  have hgrow : shm_grow s2 (idx * 8 % UINT_MOD / s2.pagesize) ro2 = some s2 := by
    rw [hps]
    simp [shm_grow, Nat.not_le.mpr hlt]
  simp only [get_shm, if_neg hp2, hgrow]
  rw [hps, shm_map_entry_already ha, ha, hr]
  rfl

/-! ## Claim C4: get_shm failure behaviour -/

/-- Claim C4 (code_bug evidence).  The claim states: get_shm never fails
visibly — for any slot index, a failure to grow the page-pointer array or
to map a page is only logged and does not fail the triggering call, which
still returns a pointer.  The first conjunct shows this is false for the
growth path: starting from the pool as `fsync_init` leaves it (128 slots),
`get_shm(65536)` with a failing `realloc` crashes (the code overwrites
`shm_addrs` with NULL and then memsets through it) instead of returning a
pointer.  The remaining conjuncts show the claim does hold for the mapping
path: with the same pool, a call needing no growth returns a pointer for
every `mmap` outcome including MAP_FAILED, and so does the growing call
when `realloc` succeeds. -/
theorem get_shm_realloc_failure_crashes :
    get_shm (initShm 4096) 65536 false (some 777) = none ∧
    (∀ (ro : Bool) (mm : Option Nat),
      (get_shm (initShm 4096) 0 ro mm).isSome = true ∧
      (get_shm (initShm 4096) 65536 true mm).isSome = true) :=
  ⟨rfl, fun _ _ => ⟨rfl, rfl⟩⟩

/-! ## Claim C6: the feature gate decision is computed once and cached -/

/-- Claim C6.  The feature-gate decision `do_fsync()` is computed at most
once per process — the syscall probe and environment check run only on the
first call — and every subsequent call returns the same cached value.
Formally: whatever the gate state, after one call to `do_fsync` a second
call (under arbitrary environment and probe oracles) returns the same
decision, leaves the gate state unchanged, and does not run the probe. -/
theorem do_fsync_computed_once :
    ∀ (g : FsyncGate) (e p e2 p2 : Bool),
      (do_fsync (do_fsync g e p).2.1 e2 p2).1 = (do_fsync g e p).1 ∧
      (do_fsync (do_fsync g e p).2.1 e2 p2).2.1 = (do_fsync g e p).2.1 ∧
      (do_fsync (do_fsync g e p).2.1 e2 p2).2.2 = false := by
  intro g e p e2 p2
  cases g with
  | mk c =>
    cases c with
    | none => exact ⟨rfl, rfl, rfl⟩
    | some v => exact ⟨rfl, rfl, rfl⟩

/-! ## Claim C9: get_shm page arithmetic and growth -/

/-- Claim C9 counterexample.  The claim states that `get_shm` computes the
page as `slot_index * unit_size / pagesize` for every slot index, but the
parameter `idx` is C `unsigned int`, so `idx * 8` is 32-bit arithmetic and
wraps modulo 2^32 before the division (fsync.c lines 120-123).  At slot
index 2^29 = 536870912 with page size 4096 the claim's formula gives page
2^20 = 1048576 — outside the 128-slot array, so by the claim the call
would have to grow the array to at least 1048577 — while the code wraps
`2^29 * 8` to 0, computes page 0, grows nothing, publishes the mapping in
slot 0 and returns its address. -/
theorem get_shm_page_wraps_counterexample :
    get_shm (initShm 4096) 536870912 true (some 777)
      = some (777, ⟨fupd (fun _ => none) 0 (some 777), 128, 4096⟩) ∧
    536870912 * sizeof_semaphore / (initShm 4096).pagesize = 1048576 ∧
    ¬(1048576 < (128 : Nat)) :=
  ⟨rfl, by norm_num [sizeof_semaphore, initShm], by norm_num⟩

/-- Claim C9 as amended.  For every slot index, `get_shm` computes the byte
position `slot_index * unit_size` in 32-bit unsigned arithmetic — `idx` is
`unsigned int`, so `idx * 8` wraps modulo 2^32 — then the page as that
wrapped byte position divided by the page size and the offset as its
remainder, with `unit_size = 8`, the fixed semaphore state block size
(`C_ASSERT(sizeof(struct semaphore) == 8)`); it grows its page-pointer
array by doubling (to at least `page + 1`) whenever the computed page is
outside the current array.  For slot indices below 2^29 the wrap is the
identity (last conjunct), so there the claim's original
`slot_index * unit_size / pagesize` formula holds. -/
theorem get_shm_page_offset_growth :
    ∀ (s : ShmState) (idx : Nat) (ro : Bool) (mm : Option Nat) (r : Nat) (s2 : ShmState),
      get_shm s idx ro mm = some (r, s2) →
      sizeof_semaphore = 8 ∧
      s2.shm_addrs_size =
        (if s.shm_addrs_size ≤ idx * sizeof_semaphore % UINT_MOD / s.pagesize
         then max (s.shm_addrs_size * 2)
                  (idx * sizeof_semaphore % UINT_MOD / s.pagesize + 1)
         else s.shm_addrs_size) ∧
      idx * sizeof_semaphore % UINT_MOD / s.pagesize < s2.shm_addrs_size ∧
      (∃ a, s2.shm_addrs (idx * sizeof_semaphore % UINT_MOD / s.pagesize) = some a ∧
            r = (a + idx * sizeof_semaphore % UINT_MOD % s.pagesize) % PTR_MOD) ∧
      (idx < 2 ^ 29 → idx * sizeof_semaphore % UINT_MOD = idx * sizeof_semaphore) := by
  intro s idx ro mm r s2 h
  obtain ⟨_, _, hsz, hlt, a, ha, hr⟩ := get_shm_some_inv h
  refine ⟨rfl, hsz, hlt, ⟨a, ha, hr⟩, ?_⟩
  intro hidx
  apply Nat.mod_eq_of_lt
  have h8 : sizeof_semaphore = 8 := rfl
  have hU : UINT_MOD = 4294967296 := by norm_num [UINT_MOD]
  have hidx2 : idx < 536870912 := by norm_num at hidx; exact hidx
  rw [h8, hU]
  omega

/-- Witness for the amended claim C9 at a concrete input: the pool as
`fsync_init` leaves it (128 slots, page size 4096), slot index 65536 (byte
position 524288, below the 2^32 wrap, page 128, offset 0), so the array
doubles to 256 and the fresh mapping at address 777 is returned. -/
theorem get_shm_page_offset_growth_witness :
    ∃ s2, get_shm (initShm 4096) 65536 true (some 777) = some (777, s2) ∧
      (sizeof_semaphore = 8 ∧
       s2.shm_addrs_size =
         (if (initShm 4096).shm_addrs_size ≤
              65536 * sizeof_semaphore % UINT_MOD / (initShm 4096).pagesize
          then max ((initShm 4096).shm_addrs_size * 2)
                   (65536 * sizeof_semaphore % UINT_MOD / (initShm 4096).pagesize + 1)
          else (initShm 4096).shm_addrs_size) ∧
       65536 * sizeof_semaphore % UINT_MOD / (initShm 4096).pagesize < s2.shm_addrs_size ∧
       (∃ a, s2.shm_addrs (65536 * sizeof_semaphore % UINT_MOD / (initShm 4096).pagesize)
               = some a ∧
             777 = (a + 65536 * sizeof_semaphore % UINT_MOD % (initShm 4096).pagesize)
                     % PTR_MOD) ∧
       (65536 < 2 ^ 29 → 65536 * sizeof_semaphore % UINT_MOD = 65536 * sizeof_semaphore)) := by
  refine ⟨(shm_map_entry (ShmState.mk
      (fun e => if (initShm 4096).shm_addrs_size ≤ e ∧ e < 256 then none
                else (initShm 4096).shm_addrs e) 256 4096) 128 (some 777)), rfl, ?_⟩
  exact get_shm_page_offset_growth (initShm 4096) 65536 true (some 777) 777 _ rfl

/-! ## Claim C10: the NULL handle wraps out of range harmlessly -/

/-- Claim C10.  For every handle value whose shifted form is zero
(`handle >> 2 == 0`, e.g. the NULL handle), the index derivation
`(handle >> 2) - 1` wraps to a value whose block index exceeds
`FSYNC_LIST_ENTRIES`, so `get_cached_object` returns NULL and `add_to_list`
declines to cache — both bail out on the range check before touching any
cache array. -/
theorem null_handle_out_of_range :
    ∀ (h : Nat) (s : CacheState) (ty p : Nat) (ok : Bool),
      h < PTR_MOD → h / 4 = 0 →
      FSYNC_LIST_ENTRIES < (handle_to_index h).2 ∧
      get_cached_object s h = none ∧
      add_to_list s h ty p ok = (s, false) := by
  intro h s ty p ok _ hzero
  have hidx : handle_to_index h = (4095, 4503599627370495) := by
    simp only [handle_to_index, hzero]
    norm_num [PTR_MOD, FSYNC_LIST_BLOCK_SIZE, sizeof_fsync]
  have hgt : FSYNC_LIST_ENTRIES < (handle_to_index h).2 := by
    rw [hidx]; norm_num [FSYNC_LIST_ENTRIES]
  have hge : FSYNC_LIST_ENTRIES ≤ (handle_to_index h).2 := Nat.le_of_lt hgt
  refine ⟨hgt, ?_, ?_⟩
  · simp only [get_cached_object]
    rw [if_pos hge]
  · simp only [add_to_list, add_to_list_locate]
    rw [if_pos hge]
    exact rfl

/-! ## Claim C7: the type field is published exactly once -/

/-- Claim C7.  For every Handle Cache record, the type field transitions
from 0 to nonzero exactly once via CAS: once a record's type is nonzero, no
later `add_to_list` call for the same handle changes its type or its shm
pointer — the failed CAS makes the whole call a no-op on the state (it
still returns the record's address) — and only the CAS winner sets
`shm_ptr`: when the stored type is still 0, the calling thread wins the CAS
and the record becomes exactly `{ty, p}`. -/
theorem add_to_list_publish_once :
    ∀ (s : CacheState) (h ty p ty2 p2 : Nat) (ok ok2 : Bool) (b : Block),
      (handle_to_index h).2 < FSYNC_LIST_ENTRIES →
      s.list (handle_to_index h).2 = some b →
      ((b (handle_to_index h).1).type ≠ 0 →
        add_to_list s h ty2 p2 ok2 = (s, true)) ∧
      ((b (handle_to_index h).1).type = 0 →
        add_to_list s h ty p ok =
          (⟨fupd s.list (handle_to_index h).2
             (some (fupd b (handle_to_index h).1 ⟨ty, p⟩))⟩, true)) := by
  intro s h ty p ty2 p2 ok ok2 b hlt hb
  have hnotle : ¬FSYNC_LIST_ENTRIES ≤ (handle_to_index h).2 := Nat.not_le.mpr hlt
  constructor
  · intro hty
    simp only [add_to_list, add_to_list_locate, hb, if_neg hnotle, optElim_some,
      cas_type, if_neg hty]
  · intro hty0
    simp only [add_to_list, add_to_list_locate, hb, if_neg hnotle, optElim_some,
      cas_type, if_pos hty0, store_shm, fupd_self, fupd_fupd]
    simp only [Prod.mk.injEq, CacheState.mk.injEq, and_true]
    congr 1

/-- Witness for claim C7 at a concrete state: a cache whose block 0 has the
record for handle 8 already published as `{1, 42}`.  A second `add_to_list`
with type 5 and pointer 99 leaves the state untouched, while on a zeroed
record the caller wins the CAS and writes `{5, 99}`. -/
theorem add_to_list_publish_once_witness :
    ((handle_to_index 8).2 < FSYNC_LIST_ENTRIES ∧
     (CacheState.mk (fupd (fun _ => none) 0 (some (fupd zeroBlock 1 ⟨1, 42⟩)))).list
       (handle_to_index 8).2 = some (fupd zeroBlock 1 ⟨1, 42⟩)) ∧
    (add_to_list ⟨fupd (fun _ => none) 0 (some (fupd zeroBlock 1 ⟨1, 42⟩))⟩ 8 5 99 true
       = (⟨fupd (fun _ => none) 0 (some (fupd zeroBlock 1 ⟨1, 42⟩))⟩, true)) ∧
    (add_to_list ⟨fupd (fun _ => none) 0 (some zeroBlock)⟩ 8 5 99 true
       = (⟨fupd (fupd (fun _ => none) 0 (some zeroBlock)) (handle_to_index 8).2
            (some (fupd zeroBlock (handle_to_index 8).1 ⟨5, 99⟩))⟩, true)) :=
  ⟨⟨by norm_num [handle_to_index, PTR_MOD, FSYNC_LIST_BLOCK_SIZE, sizeof_fsync,
       FSYNC_LIST_ENTRIES], rfl⟩,
   (add_to_list_publish_once ⟨fupd (fun _ => none) 0 (some (fupd zeroBlock 1 ⟨1, 42⟩))⟩
      8 5 99 5 99 true true (fupd zeroBlock 1 ⟨1, 42⟩)
      (by norm_num [handle_to_index, PTR_MOD, FSYNC_LIST_BLOCK_SIZE, sizeof_fsync,
        FSYNC_LIST_ENTRIES]) rfl).1 (by decide),
   (add_to_list_publish_once ⟨fupd (fun _ => none) 0 (some zeroBlock)⟩
      8 5 99 5 99 true true zeroBlock
      (by norm_num [handle_to_index, PTR_MOD, FSYNC_LIST_BLOCK_SIZE, sizeof_fsync,
        FSYNC_LIST_ENTRIES]) rfl).2 (by decide)⟩

/-! ## Claim C8: handle-cache overflow is a soft no-op -/

/-- Claim C8.  For every handle whose derived block index is at or beyond
FSYNC_LIST_ENTRIES, `add_to_list` is a soft no-op: it returns the failure
indicator (FALSE) and leaves the entire handle cache unchanged, and the
enclosing `create_fsync` call still returns the authority's success status
(with the reply's handle written out and only the page pool updated by
`get_shm`) rather than failing. -/
theorem add_to_list_overflow_noop :
    (∀ (c : CacheState) (h ty p : Nat) (ok : Bool),
      FSYNC_LIST_ENTRIES ≤ (handle_to_index h).2 →
      add_to_list c h ty p ok = (c, false)) ∧
    (∀ (s : ProcState) (reply : ServerReply) (ty p : Nat) (ro ok : Bool)
        (mm : Option Nat) (shm2 : ShmState),
      reply.status = STATUS_SUCCESS →
      FSYNC_LIST_ENTRIES ≤ (handle_to_index reply.handle).2 →
      get_shm s.shm reply.shm_idx ro mm = some (p, shm2) →
      create_fsync s ty 0 reply ro mm ok =
        some (STATUS_SUCCESS, some reply.handle, ⟨s.cache, shm2⟩)) := by
  constructor
  · intro c h ty p ok hge
    simp only [add_to_list, add_to_list_locate]
    rw [if_pos hge]
    exact rfl
  · intro s reply ty p ro ok mm shm2 hst hge hshm
    have hnoop : add_to_list s.cache reply.handle ty p ok = (s.cache, false) := by
      simp only [add_to_list, add_to_list_locate]
      rw [if_pos hge]
      exact rfl
    simp only [create_fsync, hst, hshm, optElim_some, hnoop]
    norm_num [STATUS_SUCCESS]

/-- Witness for claim C8: handle 4194312 derives block index 256, one past
the last supported block; the authority's success reply is still returned
and the cache is untouched. -/
theorem add_to_list_overflow_noop_witness :
    (FSYNC_LIST_ENTRIES ≤ (handle_to_index 4194312).2 ∧
     add_to_list emptyCache 4194312 1 500 true = (emptyCache, false)) ∧
    (get_shm (initShm 4096) 0 true (some 500)
       = some (500, ⟨fupd (fun _ => none) 0 (some 500), 128, 4096⟩) ∧
     create_fsync ⟨emptyCache, initShm 4096⟩ 1 0 ⟨STATUS_SUCCESS, 4194312, 0⟩
         true (some 500) true =
       some (STATUS_SUCCESS, some 4194312,
             ⟨emptyCache, ⟨fupd (fun _ => none) 0 (some 500), 128, 4096⟩⟩)) := by
  have hge : FSYNC_LIST_ENTRIES ≤ (handle_to_index 4194312).2 := by
    norm_num [handle_to_index, PTR_MOD, FSYNC_LIST_BLOCK_SIZE, sizeof_fsync,
      FSYNC_LIST_ENTRIES]
  exact ⟨⟨hge, add_to_list_overflow_noop.1 emptyCache 4194312 1 500 true hge⟩,
    rfl,
    add_to_list_overflow_noop.2 ⟨emptyCache, initShm 4096⟩ ⟨STATUS_SUCCESS, 4194312, 0⟩
      1 500 true true (some 500) ⟨fupd (fun _ => none) 0 (some 500), 128, 4096⟩
      rfl hge rfl⟩

/-- Witness for claim C10 at the NULL handle itself. -/
theorem null_handle_out_of_range_witness :
    (0 : Nat) < PTR_MOD ∧ (0 : Nat) / 4 = 0 ∧
    (FSYNC_LIST_ENTRIES < (handle_to_index 0).2 ∧
     get_cached_object emptyCache 0 = none ∧
     add_to_list emptyCache 0 1 42 true = (emptyCache, false)) :=
  ⟨by norm_num [PTR_MOD], rfl,
   null_handle_out_of_range 0 emptyCache 1 42 true (by norm_num [PTR_MOD]) rfl⟩

/-! ## Claim C1: publish ordering observed by concurrent readers -/

/-- Claim C1 (code_bug evidence).  The claim states that after
`add_to_list(h, t, p)` succeeds, `get_cached_object(h)` returns either NULL
or a fully-formed record, and is never observed with the type field nonzero
but the shm pointer not yet set, even when the publish and the read
interleave, because the writer supposedly sets the payload before
CAS-publishing the type flag.  The code does the opposite: line 188
CAS-publishes the type first and only then line 189 stores the shm pointer.
The first conjunct evaluates the reader between those two atomic actions
(writer: handle 8, type 1, shm 42) and observes the half-built record
`{type = 1, shm = 0}`.  The second conjunct shows the sequential good case
that holds once `add_to_list` has returned. -/
theorem get_cached_object_sees_half_published_record :
    (add_to_list_after_cas emptyCache 8 1 true).map
        (fun s1 => get_cached_object s1 8) = some (some ⟨1, 0⟩) ∧
    get_cached_object (add_to_list emptyCache 8 1 42 true).1 8 = some ⟨1, 42⟩ :=
  ⟨rfl, rfl⟩

/-! ## Claim C2: feature-gate configuration-mismatch abort -/

/-- Claim C2 counterexample.  The claim states: during feature-gate
initialization, if the subsystem is locally enabled but the external
authority answers a probe creation request with "not implemented", the
process aborts.  At the concrete input (locally enabled, authority primed
to answer STATUS_NOT_IMPLEMENTED, backing file present) `fsync_init`
returns normally and, as the second component shows, never even sends the
probe: the probe creation request exists only on the locally-disabled
path. -/
theorem fsync_init_enabled_probe_counterexample :
    fsync_init true ⟨STATUS_NOT_IMPLEMENTED, 0, 0⟩ true = (InitOutcome.normal, false) :=
  rfl

/-- Claim C2 as amended.  During feature-gate initialization the probe
creation request is sent exactly when the subsystem is locally disabled;
if the authority then answers with a failure status other than
"not implemented" the process aborts with the configuration-mismatch
diagnostic, while a "not implemented" answer is the expected agreement and
initialization returns normally. -/
theorem fsync_init_probe_mismatch_abort :
    ∀ (reply : ServerReply) (shmOk : Bool),
      (fsync_init false reply shmOk).2 = true ∧
      (fsync_init true reply shmOk).2 = false ∧
      (reply.status = STATUS_NOT_IMPLEMENTED →
        fsync_init false reply shmOk = (InitOutcome.normal, true)) ∧
      (reply.status ≠ STATUS_SUCCESS → reply.status ≠ STATUS_OBJECT_NAME_EXISTS →
        reply.status ≠ STATUS_NOT_IMPLEMENTED →
        fsync_init false reply shmOk = (InitOutcome.aborted, true)) := by
  intro reply shmOk
  have hcrash : get_shm uninitShm reply.shm_idx true none = none := rfl
  refine ⟨?_, by cases shmOk <;> rfl, ?_, ?_⟩
  · by_cases hs : reply.status = STATUS_SUCCESS ∨ reply.status = STATUS_OBJECT_NAME_EXISTS
    · simp [fsync_init, create_fsync, hs, hcrash, optElim_none]
    · simp only [fsync_init, create_fsync, if_neg hs, Bool.not_false, if_true]
      norm_num [optElim_some]
      split <;> rfl
  · intro hni
    simp [fsync_init, create_fsync, hni, optElim_some,
      if_neg (show ¬(STATUS_NOT_IMPLEMENTED = STATUS_SUCCESS ∨
        STATUS_NOT_IMPLEMENTED = STATUS_OBJECT_NAME_EXISTS) by decide)]
  · intro h1 h2 h3
    have h0 : ¬(reply.status = STATUS_SUCCESS ∨ reply.status = STATUS_OBJECT_NAME_EXISTS) := by
      intro hc
      cases hc with
      | inl hcl => exact h1 hcl
      | inr hcr => exact h2 hcr
    simp [fsync_init, create_fsync, if_neg h0, optElim_some, h3]

/-- Witness for the amended claim C2: with the authority answering
"access denied" the disabled-path probe mismatch aborts; with it answering
"not implemented" initialization returns normally. -/
theorem fsync_init_probe_mismatch_abort_witness :
    (STATUS_ACCESS_DENIED ≠ STATUS_SUCCESS ∧
     STATUS_ACCESS_DENIED ≠ STATUS_OBJECT_NAME_EXISTS ∧
     STATUS_ACCESS_DENIED ≠ STATUS_NOT_IMPLEMENTED ∧
     fsync_init false ⟨STATUS_ACCESS_DENIED, 0, 0⟩ true = (InitOutcome.aborted, true)) ∧
    (fsync_init false ⟨STATUS_NOT_IMPLEMENTED, 0, 0⟩ true = (InitOutcome.normal, true)) :=
  ⟨⟨by decide, by decide, by decide,
    (fsync_init_probe_mismatch_abort ⟨STATUS_ACCESS_DENIED, 0, 0⟩ true).2.2.2
      (by decide) (by decide) (by decide)⟩,
   (fsync_init_probe_mismatch_abort ⟨STATUS_NOT_IMPLEMENTED, 0, 0⟩ true).2.2.1 rfl⟩

/-! ## Claim C3: create_fsync inserts exactly on success -/

/-- Claim C3.  `create_fsync` runs the Handle Cache insertion
(`add_to_list`) and the Shared Page Pool lookup (`get_shm`) exactly when
the authority replies success or "already exists", using the handle and
slot index from the reply; for every failure status — including a failed
`alloc_object_attributes` before the request is even sent — the status is
returned to the caller verbatim and neither the cache nor the pool is
modified (the returned state is the input state). -/
theorem create_fsync_insert_exactly_on_success :
    ∀ (s : ProcState) (ty : Nat) (reply : ServerReply) (ro ok : Bool) (mm : Option Nat),
      (∀ st, st ≠ 0 → create_fsync s ty st reply ro mm ok = some (st, none, s)) ∧
      (reply.status ≠ STATUS_SUCCESS → reply.status ≠ STATUS_OBJECT_NAME_EXISTS →
        create_fsync s ty 0 reply ro mm ok = some (reply.status, none, s)) ∧
      (∀ (p : Nat) (shm2 : ShmState),
        (reply.status = STATUS_SUCCESS ∨ reply.status = STATUS_OBJECT_NAME_EXISTS) →
        get_shm s.shm reply.shm_idx ro mm = some (p, shm2) →
        create_fsync s ty 0 reply ro mm ok =
          some (reply.status, some reply.handle,
                ⟨(add_to_list s.cache reply.handle ty p ok).1, shm2⟩)) := by
  intro s ty reply ro ok mm
  refine ⟨?_, ?_, ?_⟩
  · intro st hst
    simp [create_fsync, if_pos hst]
  · intro h1 h2
    have h0 : ¬(reply.status = STATUS_SUCCESS ∨ reply.status = STATUS_OBJECT_NAME_EXISTS) := by
      intro hc
      cases hc with
      | inl hcl => exact h1 hcl
      | inr hcr => exact h2 hcr
    simp [create_fsync, if_neg h0]
  · intro p shm2 hs hshm
    simp [create_fsync, if_pos hs, hshm, optElim_some]

/-- Witness for claim C3: an "access denied" reply is returned verbatim
with the state untouched, a failed attribute serialization (status 5) is
returned verbatim before any server call, and an "already exists" reply
inserts through `get_shm`/`add_to_list` with the reply's handle 8 and slot
index 0. -/
theorem create_fsync_insert_exactly_on_success_witness :
    (create_fsync ⟨emptyCache, initShm 4096⟩ 1 0 ⟨STATUS_ACCESS_DENIED, 7, 3⟩ true
        (some 500) true = some (STATUS_ACCESS_DENIED, none, ⟨emptyCache, initShm 4096⟩)) ∧
    (create_fsync ⟨emptyCache, initShm 4096⟩ 1 5 ⟨STATUS_SUCCESS, 7, 3⟩ true
        (some 500) true = some (5, none, ⟨emptyCache, initShm 4096⟩)) ∧
    (get_shm (initShm 4096) 0 true (some 500)
        = some (500, ⟨fupd (fun _ => none) 0 (some 500), 128, 4096⟩) ∧
     create_fsync ⟨emptyCache, initShm 4096⟩ 1 0 ⟨STATUS_OBJECT_NAME_EXISTS, 8, 0⟩ true
        (some 500) true =
       some (STATUS_OBJECT_NAME_EXISTS, some 8,
             ⟨(add_to_list emptyCache 8 1 500 true).1,
              ⟨fupd (fun _ => none) 0 (some 500), 128, 4096⟩⟩)) :=
  ⟨(create_fsync_insert_exactly_on_success ⟨emptyCache, initShm 4096⟩ 1
      ⟨STATUS_ACCESS_DENIED, 7, 3⟩ true true (some 500)).2.1 (by decide) (by decide),
   (create_fsync_insert_exactly_on_success ⟨emptyCache, initShm 4096⟩ 1
      ⟨STATUS_SUCCESS, 7, 3⟩ true true (some 500)).1 5 (by decide),
   rfl,
   (create_fsync_insert_exactly_on_success ⟨emptyCache, initShm 4096⟩ 1
      ⟨STATUS_OBJECT_NAME_EXISTS, 8, 0⟩ true true (some 500)).2.2 500
      ⟨fupd (fun _ => none) 0 (some 500), 128, 4096⟩ (Or.inr rfl) rfl⟩

/-! ## Claim C5: get_shm idempotence and the first-mapping race -/

theorem raceInv_init (aA aB : Nat) : RaceInv aA aB raceInit := by
  refine ⟨by simp [raceInit, slotM, contrib], ?_, ?_, ?_, ?_, ?_⟩
  · intro a ha; nomatch ha
  · intro a ha; nomatch ha
  · intro r hr; nomatch hr
  · intro r hr; nomatch hr
  · intro w hw; nomatch hw

theorem raceInv_stepA {aA aB : Nat} (hne : aA ≠ aB) {s : RaceState}
    (h : RaceInv aA aB s) : RaceInv aA aB (stepA aA s) := by
  obtain ⟨slot, mapped, pcA, pcB⟩ := s
  obtain ⟨hm, hA, hB, hFA, hFB, hpub⟩ := h
  dsimp only at hm hA hB hFA hFB hpub
  cases pcA with
  | start =>
    cases slot with
    | none =>
      simp only [stepA, tstep]
      refine ⟨hm, ?_, hB, ?_, hFB, ?_⟩
      · intro a ha; nomatch ha
      · intro r hr; nomatch hr
      · intro w hw; nomatch hw
    | some w =>
      simp only [stepA, tstep]
      refine ⟨hm, ?_, hB, ?_, hFB, ?_⟩
      · intro a ha; nomatch ha
      · intro r hr
        dsimp only
        injection hr with hr1
        rw [hr1]
      · intro w2 hw2
        dsimp only at hw2 ⊢
        injection hw2 with hw1
        subst hw1
        rcases hpub _ rfl with ⟨_, hpa⟩ | hright
        · nomatch hpa
        · exact Or.inr hright
  | checked =>
    simp only [stepA, tstep]
    refine ⟨?_, ?_, hB, ?_, hFB, ?_⟩
    · dsimp only
      rw [hm]
      simp only [contrib, ← Multiset.singleton_add]
      abel
    · intro a ha
      dsimp only at ha
      injection ha with ha1
      exact ha1.symm
    · intro r hr; nomatch hr
    · intro w hw
      dsimp only at hw ⊢
      rcases hpub w hw with ⟨_, hpa⟩ | hright
      · nomatch hpa
      · exact Or.inr hright
  | haveAddr a =>
    have haA : a = aA := hA a rfl
    subst haA
    cases slot with
    | none =>
      simp only [stepA, tstep]
      refine ⟨?_, ?_, hB, ?_, ?_, ?_⟩
      · dsimp only
        rw [hm]
        simp only [slotM, contrib]
        abel
      · intro a2 ha2; nomatch ha2
      · intro r hr
        dsimp only at hr ⊢
        injection hr with hr1
        rw [hr1]
      · intro r hr
        dsimp only at hr ⊢
        exact absurd (hFB r hr) (by simp)
      · intro w hw
        dsimp only at hw ⊢
        injection hw with hw1
        subst hw1
        exact Or.inl ⟨rfl, rfl⟩
    | some w =>
      rcases hpub w rfl with ⟨_, hpa⟩ | ⟨hwb, hpbB⟩
      · nomatch hpa
      · subst hwb
        simp only [stepA, tstep]
        refine ⟨?_, ?_, hB, ?_, hFB, ?_⟩
        · dsimp only
          rw [hm, hpbB]
          simp only [slotM, contrib, Multiset.singleton_add, add_zero]
          rw [Multiset.erase_cons_tail _ (Ne.symm hne), Multiset.erase_singleton]
          rfl
        · intro a2 ha2; nomatch ha2
        · intro r hr
          dsimp only at hr ⊢
          injection hr with hr1
          rw [hr1]
        · intro w2 hw2
          dsimp only at hw2 ⊢
          injection hw2 with hw1
          subst hw1
          exact Or.inr ⟨rfl, hpbB⟩
  | finished r =>
    cases slot with
    | none => exact ⟨hm, hA, hB, hFA, hFB, hpub⟩
    | some w => exact ⟨hm, hA, hB, hFA, hFB, hpub⟩

/-- Swapping the two threads preserves the invariant with the addresses
swapped: used to derive the thread-B step lemma from the thread-A one. -/
theorem raceInv_swap {aA aB : Nat} {s : RaceState} (h : RaceInv aA aB s) :
    RaceInv aB aA ⟨s.slot, s.mapped, s.pcB, s.pcA⟩ := by
  obtain ⟨hm, hA, hB, hFA, hFB, hpub⟩ := h
  refine ⟨?_, hB, hA, hFB, hFA, ?_⟩
  · rw [hm]; abel
  · intro w hw
    rcases hpub w hw with hl | hr
    · exact Or.inr hl
    · exact Or.inl hr

theorem raceInv_stepB {aA aB : Nat} (hne : aA ≠ aB) {s : RaceState}
    (h : RaceInv aA aB s) : RaceInv aA aB (stepB aB s) :=
  raceInv_swap (raceInv_stepA (Ne.symm hne) (raceInv_swap h))

theorem raceInv_run {aA aB : Nat} (hne : aA ≠ aB) :
    ∀ (sched : List Bool) (s : RaceState), RaceInv aA aB s →
      RaceInv aA aB (raceRun aA aB s sched) := by
  intro sched
  induction sched with
  | nil => intro s h; exact h
  | cons c rest ih =>
    intro s h
    simp only [raceRun]
    apply ih
    cases c with
    | true => simpa using raceInv_stepA hne h
    | false => simpa using raceInv_stepB hne h

/-- Claim C5.  For any slot index i, repeated calls to `get_shm(i)` within
one process return an identical pointer (and leave the pool unchanged);
and when two callers race to first-map the page containing i — modelled by
the `RaceState` machine running the atomic actions of fsync.c lines
135-147 under an arbitrary interleaving — the CAS loser unmaps its
redundant mapping, so once both callers have finished exactly one mapping
is live (the published one) and both callers obtained that same published
address. -/
theorem get_shm_idempotent_and_race_loser_unmaps :
    (∀ (s : ShmState) (idx : Nat) (ro ro2 : Bool) (mm mm2 : Option Nat)
        (r : Nat) (s2 : ShmState),
      get_shm s idx ro mm = some (r, s2) → get_shm s2 idx ro2 mm2 = some (r, s2)) ∧
    (∀ (aA aB : Nat) (sched : List Bool) (rA rB : Nat),
      aA ≠ aB →
      (raceRun aA aB raceInit sched).pcA = TPC.finished rA →
      (raceRun aA aB raceInit sched).pcB = TPC.finished rB →
      rA = rB ∧ (raceRun aA aB raceInit sched).slot = some rA ∧
      (raceRun aA aB raceInit sched).mapped = {rA}) := by
  constructor
  · intro s idx ro ro2 mm mm2 r s2 h
    exact get_shm_stable h ro2 mm2
  · intro aA aB sched rA rB hne hA hB
    have hinv := raceInv_run hne sched raceInit (raceInv_init aA aB)
    have hsA := hinv.finA rA hA
    have hsB := hinv.finB rB hB
    have hsome : some rA = some rB := hsA.symm.trans hsB
    injection hsome with hr
    refine ⟨hr, hsA, ?_⟩
    rw [hinv.mapped_eq, hA, hB, hsA]
    simp [slotM, contrib]

/-- Witness for claim C5: a first call maps slot 0 at address 500 and a
second call (with different oracle outcomes) returns the same pointer and
state; in the race, thread A maps address 1, thread B maps address 2, and
under the schedule A-check, A-mmap, B-check, A-CAS-win, B-mmap, B-CAS-lose
both threads finish with the published address 1 and only mapping 1
remains live. -/
theorem get_shm_idempotent_and_race_loser_unmaps_witness :
    (get_shm (initShm 4096) 0 true (some 500)
       = some (500, ⟨fupd (fun _ => none) 0 (some 500), 128, 4096⟩) ∧
     get_shm ⟨fupd (fun _ => none) 0 (some 500), 128, 4096⟩ 0 false none
       = some (500, ⟨fupd (fun _ => none) 0 (some 500), 128, 4096⟩)) ∧
    ((1 : Nat) ≠ 2 ∧
     (raceRun 1 2 raceInit [true, true, false, true, false, false]).pcA = TPC.finished 1 ∧
     (raceRun 1 2 raceInit [true, true, false, true, false, false]).pcB = TPC.finished 1 ∧
     (1 = 1 ∧
      (raceRun 1 2 raceInit [true, true, false, true, false, false]).slot = some 1 ∧
      (raceRun 1 2 raceInit [true, true, false, true, false, false]).mapped = {1})) :=
  ⟨⟨rfl, get_shm_idempotent_and_race_loser_unmaps.1 (initShm 4096) 0 true false
      (some 500) none 500 ⟨fupd (fun _ => none) 0 (some 500), 128, 4096⟩ rfl⟩,
   by decide, by decide, by decide,
   get_shm_idempotent_and_race_loser_unmaps.2 1 2 [true, true, false, true, false, false]
     1 1 (by decide) (by decide) (by decide)⟩

end FsyncSpec
